import Mathlib

/-!
Verification development for the lodestar-cli transaction construction module
(file transactions.mjs of the repository). The JavaScript source is shallowly
embedded in Lean: floating point configuration values are modelled as exact
rationals, byte buffers as lists of byte values, thrown errors as explicit
outcome values, and network effects (account fetches, transaction submission)
as inputs supplied by an environment record.
-/

namespace Lodestar

/-- Modelled from the spec: the address derivers of solana.mjs (getBoardPda,
getRoundPda, getMinerPda, getAutomationPda, getTreasuryPda) are not among the
sources; the spec describes them as pure deterministic derivations from a role
token plus optional parameters (authority, round identifier). They are
modelled as an injective address algebra for the single authority of a cycle,
together with the fixed system and literal public keys. -/
inductive Addr where
  | authority
  | boardPda
  | minerPda
  | automationPda
  | treasuryPda
  | roundPda (roundId : ℕ)
  | systemProgramId
  | pubkeyConst (base58 : String)
  deriving DecidableEq, Repr

/-- Account metadata entry of a Solana instruction, as built literally in
transactions.mjs. -/
structure AccountMeta where
  pubkey : Addr
  isSigner : Bool
  isWritable : Bool
  deriving DecidableEq, Repr

/-- One instruction of a transaction. The ORE program instructions carry their
account list and raw data bytes; the compute budget and system transfer
instructions are the library calls used by the source. -/
inductive Instruction where
  | setComputeUnitLimit (units : ℕ)
  | setComputeUnitPrice (microLamports : ℕ)
  | ore (keys : List AccountMeta) (data : List ℕ)
  | transfer (fromPubkey : Addr) (toPubkey : Addr) (lamports : ℤ)
  deriving DecidableEq, Repr

/-- Decoded miner progress record (parseMiner result), with the two fields the
deploy cycle reads. -/
structure Miner where
  round_id : ℕ
  checkpoint_id : ℕ
  deriving DecidableEq, Repr

/-- Decoded round record (parseRound result). The deploy cycle only inspects
whether total_deployed is present (undefined is modelled as none). -/
structure Round where
  total_deployed : Option ℤ
  deriving DecidableEq, Repr

/-- A betting target; the id field is the 1-based square identifier, a plain
JavaScript number. -/
structure Target where
  id : ℤ
  deriving DecidableEq, Repr

/-- Loop body of createSquaresMask in transactions.mjs: convert the 1-based id
to a 0-based index and set the bit when the index is in range. -/
def maskStep (mask : ℕ) (target : Target) : ℕ :=
  let squareIndex : ℤ := target.id - 1
  if 0 ≤ squareIndex ∧ squareIndex < 25 then
    mask ||| (1 <<< squareIndex.toNat)
  else
    mask

/-- createSquaresMask of transactions.mjs: fold the loop body over the target
list starting from mask 0. -/
def createSquaresMask (targets : List Target) : ℕ :=
  targets.foldl maskStep 0

/-- Set bits of a 32-bit mask, as a finite set of bit positions. -/
def setBits32 (m : ℕ) : Finset ℕ :=
  (Finset.range 32).filter (fun k => m.testBit k = true)

/-- Number of set bits in a 32-bit mask. -/
def bitCount32 (m : ℕ) : ℕ :=
  (setBits32 m).card

lemma maskStep_testBit (mask : ℕ) (t : Target) (k : ℕ) :
    (maskStep mask t).testBit k =
      (mask.testBit k || (decide (t.id = (k : ℤ) + 1) && decide (k < 25))) := by
  simp only [maskStep]
  by_cases h : 0 ≤ t.id - 1 ∧ t.id - 1 < 25
  · rw [if_pos h, Nat.testBit_or, Nat.shiftLeft_eq, one_mul, Nat.testBit_two_pow]
    congr 1
    rcases eq_or_ne t.id ((k : ℤ) + 1) with he | hne
    · have hk : (t.id - 1).toNat = k := by omega
      have hk25 : k < 25 := by omega
      rw [decide_eq_true hk, decide_eq_true he, decide_eq_true hk25, Bool.true_and]
    · have hk : (t.id - 1).toNat ≠ k := by omega
      rw [decide_eq_false hk, decide_eq_false hne, Bool.false_and]
  · rw [if_neg h]
    rcases eq_or_ne t.id ((k : ℤ) + 1) with he | hne
    · have hk25 : ¬ k < 25 := by omega
      rw [decide_eq_false hk25, Bool.and_false, Bool.or_false]
    · rw [decide_eq_false hne, Bool.false_and, Bool.or_false]

lemma foldl_maskStep_acc (l : List Target) (acc : ℕ) :
    l.foldl maskStep acc = acc ||| l.foldl maskStep 0 := by
  induction l generalizing acc with
  | nil => simp
  | cons t ts ih =>
    rw [List.foldl_cons, List.foldl_cons, ih (maskStep acc t), ih (maskStep 0 t)]
    have hstep : maskStep acc t = acc ||| maskStep 0 t := by
      simp only [maskStep]
      by_cases h : 0 ≤ t.id - 1 ∧ t.id - 1 < 25
      · rw [if_pos h, if_pos h, Nat.zero_or]
      · rw [if_neg h, if_neg h, Nat.or_zero]
    rw [hstep, Nat.or_assoc]

lemma createSquaresMask_cons (t : Target) (ts : List Target) :
    createSquaresMask (t :: ts) = maskStep 0 t ||| createSquaresMask ts := by
  rw [createSquaresMask, List.foldl_cons, foldl_maskStep_acc]
  rfl

lemma createSquaresMask_testBit (ts : List Target) (k : ℕ) :
    (createSquaresMask ts).testBit k =
      ts.any (fun t => decide (t.id = (k : ℤ) + 1) && decide (k < 25)) := by
  induction ts with
  | nil => simp [createSquaresMask]
  | cons t ts ih =>
    rw [createSquaresMask_cons, Nat.testBit_or, ih, List.any_cons, maskStep_testBit]
    simp [Bool.or_comm]

lemma createSquaresMask_testBit_iff (ts : List Target) (k : ℕ) :
    (createSquaresMask ts).testBit k = true ↔
      ∃ t ∈ ts, t.id = (k : ℤ) + 1 ∧ k < 25 := by
  rw [createSquaresMask_testBit, List.any_eq_true]
  constructor
  · rintro ⟨t, ht, hb⟩
    exact ⟨t, ht, by simpa using hb⟩
  · rintro ⟨t, ht, h1, h2⟩
    exact ⟨t, ht, by simp [h1, h2]⟩

lemma createSquaresMask_lt (ts : List Target) : createSquaresMask ts < 2 ^ 25 := by
  induction ts with
  | nil => simp [createSquaresMask]
  | cons t ts ih =>
    rw [createSquaresMask_cons]
    have hstep : maskStep 0 t < 2 ^ 25 := by
      simp only [maskStep]
      by_cases h : 0 ≤ t.id - 1 ∧ t.id - 1 < 25
      · rw [if_pos h, Nat.zero_or, Nat.shiftLeft_eq, one_mul]
        exact Nat.pow_lt_pow_right (by norm_num) (by omega)
      · rw [if_neg h]
        norm_num
    exact Nat.or_lt_two_pow hstep ih

lemma setBits32_two_pow_or (k m : ℕ) (hk : k < 32) :
    setBits32 (2 ^ k ||| m) = insert k (setBits32 m) := by
  ext j
  simp only [setBits32, Finset.mem_filter, Finset.mem_insert, Finset.mem_range,
    Nat.testBit_or, Nat.testBit_two_pow, Bool.or_eq_true, decide_eq_true_eq]
  constructor
  · rintro ⟨hj, hkj | hm⟩
    · exact Or.inl hkj.symm
    · exact Or.inr ⟨hj, hm⟩
  · rintro (rfl | ⟨hj, hm⟩)
    · exact ⟨hk, Or.inl rfl⟩
    · exact ⟨hj, Or.inr hm⟩

lemma bitCount32_zero : bitCount32 0 = 0 := by
  simp [bitCount32, setBits32]

lemma bitCount32_createSquaresMask (ts : List Target)
    (hnd : (ts.map Target.id).Nodup)
    (hrange : ∀ t ∈ ts, 1 ≤ t.id ∧ t.id ≤ 25) :
    bitCount32 (createSquaresMask ts) = ts.length := by
  induction ts with
  | nil => simpa [createSquaresMask] using bitCount32_zero
  | cons t rest ih =>
    rw [List.map_cons, List.nodup_cons] at hnd
    obtain ⟨hid1, hid25⟩ := hrange t (List.mem_cons_self t rest)
    have hms : maskStep 0 t = 2 ^ (t.id - 1).toNat := by
      simp only [maskStep]
      rw [if_pos ⟨by omega, by omega⟩, Nat.zero_or, Nat.shiftLeft_eq, one_mul]
    have hnotbit : (createSquaresMask rest).testBit (t.id - 1).toNat = false := by
      rw [← Bool.not_eq_true]
      intro hb
      rw [createSquaresMask_testBit_iff] at hb
      obtain ⟨t2, ht2, heq, _⟩ := hb
      have hid : t2.id = t.id := by omega
      exact hnd.1 (List.mem_map.mpr ⟨t2, ht2, hid⟩)
    have hins : setBits32 (createSquaresMask (t :: rest)) =
        insert ((t.id - 1).toNat) (setBits32 (createSquaresMask rest)) := by
      rw [createSquaresMask_cons, hms, setBits32_two_pow_or _ _ (by omega)]
    rw [bitCount32, hins, Finset.card_insert_of_not_mem, ← bitCount32]
    · rw [ih hnd.2 (fun t2 ht2 => hrange t2 (List.mem_cons_of_mem _ ht2)),
        List.length_cons]
    · intro hmem
      have hbit := (Finset.mem_filter.mp hmem).2
      rw [hnotbit] at hbit
      exact Bool.false_ne_true hbit

lemma createSquaresMask_perm (ts ts2 : List Target) (hp : ts.Perm ts2) :
    createSquaresMask ts = createSquaresMask ts2 := by
  apply Nat.eq_of_testBit_eq
  intro k
  refine Bool.eq_iff_iff.mpr ?_
  rw [createSquaresMask_testBit_iff, createSquaresMask_testBit_iff]
  constructor
  · rintro ⟨t, ht, h⟩
    exact ⟨t, hp.mem_iff.mp ht, h⟩
  · rintro ⟨t, ht, h⟩
    exact ⟨t, hp.mem_iff.mpr ht, h⟩

/-- Little-endian byte serialization of a natural number into a fixed number
of bytes, as performed by writeBigUInt64LE and writeUInt32LE on the data
buffer (those calls raise a range error outside [0, 2^(8k)), so the deploy
payload claims carry that bound as a hypothesis). -/
def leBytes : ℕ → ℕ → List ℕ
  | 0, _ => []
  | k + 1, n => n % 256 :: leBytes k (n / 256)

/-- Little-endian interpretation of a byte list, inverse of leBytes. -/
def leDecode : List ℕ → ℕ
  | [] => 0
  | b :: bs => b + 256 * leDecode bs

/-- Deploy instruction data buffer of sendDeployTx: 13 bytes, opcode 6 at
offset 0, the stake amount as 8 little-endian bytes at offset 1, the squares
mask as 4 little-endian bytes at offset 9. -/
def deployData (amountLamports : ℤ) (squaresMask : ℕ) : List ℕ :=
  6 :: (leBytes 8 amountLamports.toNat ++ leBytes 4 squaresMask)

/-- Modelled from the spec: constants.mjs is not among the sources; the spec
calls SOL_PER_LAMPORT the fixed smallest-unit conversion constant, the amount
of SOL represented by one lamport (the smallest unit), which is 10^-9. -/
def SOL_PER_LAMPORT : ℚ := 1 / 1000000000

/-- Per-target stake in lamports from sendDeployTx:
BigInt(Math.floor(customDeployAmount / SOL_PER_LAMPORT)). The float value is
modelled as an exact rational. -/
def amountLamports (customDeployAmount : ℚ) : ℤ :=
  (customDeployAmount / SOL_PER_LAMPORT).floor

/-- Protocol fee in lamports from sendDeployTx:
BigInt(Math.floor(totalSolDeployed * 0.01 / SOL_PER_LAMPORT)) with
totalSolDeployed = customDeployAmount * targets.length; the float literal
0.01 is modelled as the exact rational 1/100. -/
def feeAmountLamports (customDeployAmount : ℚ) (numTargets : ℕ) : ℤ :=
  let totalSolDeployed : ℚ := customDeployAmount * numTargets
  (totalSolDeployed * (1 / 100) / SOL_PER_LAMPORT).floor

/-- Truncation toward zero of a rational. This definition follows the wording
of the spec (the source uses Math.floor); it is compared against the source
definitions in the numerical claims. -/
def specTruncTowardZero (q : ℚ) : ℤ :=
  if 0 ≤ q then ⌊q⌋ else -⌊-q⌋

/-- Hardcoded fee recipient public key of sendDeployTx. -/
def feeRecipient : Addr :=
  Addr.pubkeyConst "oREVE663st4oVqRp31TdEKdjqUYmZkJ3Vofi1zEAPro"

/-- Account list of the standalone checkpoint transaction in sendCheckpointTx
(authority is signer.publicKey). -/
def checkpointTxAccounts (roundToCheckpoint : ℕ) : List AccountMeta :=
  [ ⟨Addr.authority, true, true⟩,
    ⟨Addr.boardPda, false, true⟩,
    ⟨Addr.minerPda, false, true⟩,
    ⟨Addr.roundPda roundToCheckpoint, false, true⟩,
    ⟨Addr.treasuryPda, false, true⟩,
    ⟨Addr.systemProgramId, false, false⟩ ]

/-- Account list of the checkpoint instruction embedded in the deploy
transaction of sendDeployTx (note board is not writable here, unlike the
standalone checkpoint transaction). -/
def deployCheckpointAccounts (minerRoundId : ℕ) : List AccountMeta :=
  [ ⟨Addr.authority, true, true⟩,
    ⟨Addr.boardPda, false, false⟩,
    ⟨Addr.minerPda, false, true⟩,
    ⟨Addr.roundPda minerRoundId, false, true⟩,
    ⟨Addr.treasuryPda, false, true⟩,
    ⟨Addr.systemProgramId, false, false⟩ ]

/-- Account list of the deploy instruction in sendDeployTx (the first two
entries are signer.publicKey and authority, the same address). -/
def deployAccounts (currentRoundId : ℕ) : List AccountMeta :=
  [ ⟨Addr.authority, true, true⟩,
    ⟨Addr.authority, false, true⟩,
    ⟨Addr.automationPda, false, true⟩,
    ⟨Addr.boardPda, false, true⟩,
    ⟨Addr.minerPda, false, true⟩,
    ⟨Addr.roundPda currentRoundId, false, true⟩,
    ⟨Addr.systemProgramId, false, false⟩ ]

/-- Miner round id as read by sendDeployTx: the parsed round_id when a miner
account exists, else the BN(0) default. -/
def minerRoundIdOf (minerAccountInfo : Option Miner) : ℕ :=
  match minerAccountInfo with
  | some m => m.round_id
  | none => 0

/-- Miner checkpoint id as read by sendDeployTx: the parsed checkpoint_id when
a miner account exists, else the BN(0) default. -/
def minerCheckpointIdOf (minerAccountInfo : Option Miner) : ℕ :=
  match minerAccountInfo with
  | some m => m.checkpoint_id
  | none => 0

/-- Transaction assembly of sendDeployTx (steps 4 to 6 of the source): the
compute budget instructions, the conditional checkpoint instruction, the
conditional fee transfer, and finally the deploy instruction. Returns the
instruction list and the warning log lines emitted while building. -/
def buildDeployTx (currentRoundId : ℕ) (customDeployAmount : ℚ)
    (targets : List Target) (minerAccountInfo : Option Miner) :
    List Instruction × List String :=
  let minerRoundId := minerRoundIdOf minerAccountInfo
  let minerCheckpointId := minerCheckpointIdOf minerAccountInfo
  let transaction : List Instruction :=
    [Instruction.setComputeUnitLimit 750000, Instruction.setComputeUnitPrice 100000]
  let isStateDirty := minerRoundId ≠ minerCheckpointId
  let canCheckpoint := minerRoundId < currentRoundId
  let step :=
    if isStateDirty ∧ canCheckpoint then
      (transaction ++ [Instruction.ore (deployCheckpointAccounts minerRoundId) [2]],
        ([] : List String))
    else if isStateDirty ∧ ¬ canCheckpoint then
      (transaction,
        ["warning: state dirty but round " ++ toString minerRoundId ++
          " is current. skipping checkpoint."])
    else (transaction, ([] : List String))
  let transaction2 := step.1
  let warnings := step.2
  let amt := amountLamports customDeployAmount
  let squaresMask := createSquaresMask targets
  let fee := feeAmountLamports customDeployAmount targets.length
  let transaction3 :=
    if 0 < fee then
      transaction2 ++ [Instruction.transfer Addr.authority feeRecipient fee]
    else transaction2
  (transaction3 ++
    [Instruction.ore (deployAccounts currentRoundId) (deployData amt squaresMask)],
    warnings)

/-- A thrown JavaScript error as seen by the catch blocks: a message and an
optional structured log list. -/
structure JsError where
  message : String
  logs : Option (List String)
  deriving DecidableEq, Repr

/-- Observable actions of a cycle: a log line, an invocation of the fatal
error handler (handleFatalError of utils.mjs), or the submission of a
transaction. -/
inductive Event where
  | log (msg : String)
  | fatalError
  | submit (instructions : List Instruction)
  deriving DecidableEq, Repr

/-- Pattern match at the head of a character list. -/
def charsMatchAt : List Char → List Char → Bool
  | [], _ => true
  | _ :: _, [] => false
  | p :: ps, c :: cs => p == c && charsMatchAt ps cs

/-- Substring occurrence over character lists. -/
def charsContain : List Char → List Char → Bool
  | pat, [] => charsMatchAt pat []
  | pat, c :: cs => charsMatchAt pat (c :: cs) || charsContain pat cs

/-- JavaScript String.prototype.includes: s contains pat as a substring. -/
def strContains (s pat : String) : Bool :=
  charsContain pat.toList s.toList

/-- The benign-duplicate program error marker tested by sendCheckpointTx. -/
def benignMarker : String := "custom program error: 0x1"

/-- errorLogs of the sendCheckpointTx catch block:
e.logs ? e.logs.join(newline) : e.message. -/
def errorLogsOf (e : JsError) : String :=
  match e.logs with
  | some ls => String.intercalate "\n" ls
  | none => e.message

/-- Environment of one sendCheckpointTx call: whether a signer keypair is
loaded and the outcome of the submission. -/
structure CheckpointEnv where
  signerLoaded : Bool
  submitResult : Except JsError String

/-- sendCheckpointTx of transactions.mjs as a trace of observable events plus
its boolean return value. -/
def sendCheckpointTx (roundToCheckpoint : ℕ) (env : CheckpointEnv) :
    List Event × Bool :=
  if !env.signerLoaded then
    ([Event.log "checkpoint FAILED: signer keypair not loaded"], false)
  else
    let transaction :=
      [Instruction.ore (checkpointTxAccounts roundToCheckpoint) [2]]
    match env.submitResult with
    | Except.ok signature =>
        ([Event.submit transaction,
          Event.log ("checkpoint successful: " ++ signature.take 16 ++ "...")], true)
    | Except.error e =>
        let errorLogs := errorLogsOf e
        if strContains errorLogs benignMarker then
          ([Event.submit transaction,
            Event.log ("checkpoint for round " ++ toString roundToCheckpoint ++
              " already done or not needed")], true)
        else
          ([Event.submit transaction, Event.fatalError], false)

/-- Environment of one sendDeployTx call: the guard inputs, the global state
read via getState, the two account fetches, the submission outcome, and
whether the best-effort diagnostic log recovery in the catch block itself
failed (its message). -/
structure DeployEnv where
  signerLoaded : Bool
  targets : List Target
  currentRoundId : ℕ
  customDeployAmount : ℚ
  roundAccountInfo : Option (Except Unit Round)
  minerAccountInfo : Option Miner
  submitResult : Except JsError String
  logFetchFailure : Option String

/-- sendDeployTx of transactions.mjs as a trace of observable events. The
round account fetch is none when the account does not exist; some (.error ())
when parseRound throws; some (.ok r) when it parses, with the additional
malformed check on total_deployed taken from the source. The catch block of
the source always ends in handleFatalError. -/
def sendDeployTx (env : DeployEnv) : List Event :=
  if !env.signerLoaded then
    [Event.log "deploy failed: signer keypair not loaded"]
  else if env.targets.length = 0 then
    [Event.log "deploy skipped: no targets provided"]
  else
    match env.roundAccountInfo with
    | none =>
        [Event.log ("deploy skipped: round " ++ toString env.currentRoundId ++
          " account not found. Waiting for next tick.")]
    | some (Except.error _) =>
        [Event.log ("deploy skipped: round " ++ toString env.currentRoundId ++
          " account found but not initialized. Waiting for next tick.")]
    | some (Except.ok roundData) =>
        if roundData.total_deployed = none then
          [Event.log ("deploy skipped: round " ++ toString env.currentRoundId ++
            " account found but not initialized. Waiting for next tick.")]
        else
          let built := buildDeployTx env.currentRoundId env.customDeployAmount
            env.targets env.minerAccountInfo
          (built.2.map Event.log) ++
          [Event.log ("sending deploy tx for " ++ toString env.targets.length ++
            " target(s)...")] ++
          [Event.submit built.1] ++
          (match env.submitResult with
           | Except.ok signature =>
               [Event.log ("deploy successful! signature: " ++
                 signature.take 16 ++ "...")]
           | Except.error _ =>
               (match env.logFetchFailure with
                | some m => [Event.log ("error fetching logs: " ++ m)]
                | none => []) ++ [Event.fatalError])

lemma buildDeployTx_fst (R : ℕ) (s : ℚ) (ts : List Target) (mi : Option Miner) :
    (buildDeployTx R s ts mi).1 =
      [Instruction.setComputeUnitLimit 750000,
        Instruction.setComputeUnitPrice 100000] ++
      (if minerRoundIdOf mi ≠ minerCheckpointIdOf mi ∧ minerRoundIdOf mi < R then
        [Instruction.ore (deployCheckpointAccounts (minerRoundIdOf mi)) [2]]
      else []) ++
      (if 0 < feeAmountLamports s ts.length then
        [Instruction.transfer Addr.authority feeRecipient
          (feeAmountLamports s ts.length)]
      else []) ++
      [Instruction.ore (deployAccounts R)
        (deployData (amountLamports s) (createSquaresMask ts))] := by
  by_cases h1 : minerRoundIdOf mi ≠ minerCheckpointIdOf mi ∧ minerRoundIdOf mi < R
  · by_cases h2 : 0 < feeAmountLamports s ts.length
    · simp [buildDeployTx, h1, h2, apply_ite Prod.fst]
    · simp [buildDeployTx, h1, h2, apply_ite Prod.fst]
  · by_cases h2 : 0 < feeAmountLamports s ts.length
    · simp [buildDeployTx, h1, h2, apply_ite Prod.fst]
    · simp [buildDeployTx, h1, h2, apply_ite Prod.fst]

lemma buildDeployTx_snd (R : ℕ) (s : ℚ) (ts : List Target) (mi : Option Miner) :
    (buildDeployTx R s ts mi).2 =
      if minerRoundIdOf mi ≠ minerCheckpointIdOf mi ∧ minerRoundIdOf mi < R then
        []
      else if minerRoundIdOf mi ≠ minerCheckpointIdOf mi ∧
          ¬ minerRoundIdOf mi < R then
        ["warning: state dirty but round " ++ toString (minerRoundIdOf mi) ++
          " is current. skipping checkpoint."]
      else [] := by
  by_cases h1 : minerRoundIdOf mi ≠ minerCheckpointIdOf mi ∧ minerRoundIdOf mi < R
  · simp [buildDeployTx, h1, apply_ite Prod.snd]
  · by_cases h2 : minerRoundIdOf mi ≠ minerCheckpointIdOf mi ∧
        ¬ minerRoundIdOf mi < R
    · simp [buildDeployTx, h1, h2, apply_ite Prod.snd]
    · simp [buildDeployTx, h1, h2, apply_ite Prod.snd]

lemma leBytes_length (k n : ℕ) : (leBytes k n).length = k := by
  induction k generalizing n with
  | zero => rfl
  | succ k ih => simp [leBytes, ih]

lemma leDecode_leBytes (k n : ℕ) : leDecode (leBytes k n) = n % 256 ^ k := by
  induction k generalizing n with
  | zero => simp [leBytes, leDecode, Nat.mod_one]
  | succ k ih =>
    rw [leBytes, leDecode, ih, pow_succ']
    exact (Nat.mod_mul).symm

lemma leBytes_bytes_lt (k n : ℕ) : ∀ b ∈ leBytes k n, b < 256 := by
  induction k generalizing n with
  | zero => simp [leBytes]
  | succ k ih =>
    intro b hb
    rw [leBytes] at hb
    rcases List.mem_cons.mp hb with rfl | hb
    · exact Nat.mod_lt _ (by norm_num)
    · exact ih _ _ hb

lemma deployData_ne_checkpointData (a : ℤ) (m : ℕ) : deployData a m ≠ [2] := by
  simp [deployData]

lemma ore2_mem_buildDeployTx (R : ℕ) (s : ℚ) (ts : List Target)
    (mi : Option Miner) (keys : List AccountMeta) :
    Instruction.ore keys [2] ∈ (buildDeployTx R s ts mi).1 ↔
      (minerRoundIdOf mi ≠ minerCheckpointIdOf mi ∧ minerRoundIdOf mi < R) ∧
      keys = deployCheckpointAccounts (minerRoundIdOf mi) := by
  rw [buildDeployTx_fst]
  by_cases h1 : minerRoundIdOf mi ≠ minerCheckpointIdOf mi ∧ minerRoundIdOf mi < R
  · by_cases h2 : 0 < feeAmountLamports s ts.length
    · simp [h1, h2, deployData]
    · simp [h1, h2, deployData]
  · by_cases h2 : 0 < feeAmountLamports s ts.length
    · simp [h1, h2, deployData]
    · simp [h1, h2, deployData]

lemma transfer_mem_buildDeployTx (R : ℕ) (s : ℚ) (ts : List Target)
    (mi : Option Miner) (f t : Addr) (l : ℤ) :
    Instruction.transfer f t l ∈ (buildDeployTx R s ts mi).1 ↔
      0 < feeAmountLamports s ts.length ∧ f = Addr.authority ∧
      t = feeRecipient ∧ l = feeAmountLamports s ts.length := by
  rw [buildDeployTx_fst]
  by_cases h1 : minerRoundIdOf mi ≠ minerCheckpointIdOf mi ∧ minerRoundIdOf mi < R
  · by_cases h2 : 0 < feeAmountLamports s ts.length
    · simp [h1, h2]
    · simp [h1, h2]
  · by_cases h2 : 0 < feeAmountLamports s ts.length
    · simp [h1, h2]
    · simp [h1, h2]

/-- C4: for every target selection, the squares bitmask has bit (id-1) set iff
some target in the selection has that id and the id lies in [1,25]; ids
outside [1,25] never set any bit (and the fold is total, so they never raise
an error); for a duplicate-free selection with all ids in [1,25] the number of
set bits equals the length of the selection; and the mask does not depend on
the order of the selection list. -/
theorem squares_mask_correct :
    (∀ (ts : List Target) (k : ℕ),
      (createSquaresMask ts).testBit k = true ↔
        ∃ t ∈ ts, t.id = (k : ℤ) + 1 ∧ k < 25) ∧
    (∀ ts : List Target, (ts.map Target.id).Nodup →
      (∀ t ∈ ts, 1 ≤ t.id ∧ t.id ≤ 25) →
      bitCount32 (createSquaresMask ts) = ts.length) ∧
    (∀ ts ts2 : List Target, ts.Perm ts2 →
      createSquaresMask ts = createSquaresMask ts2) :=
  ⟨createSquaresMask_testBit_iff, bitCount32_createSquaresMask,
    createSquaresMask_perm⟩

/-- Witness for C4, on the scenario selection [1, 25, 26]: bit 24 is set, the
out-of-range id 26 is ignored, the whole mask is 0b1000000000000000000000001,
the bit count of the duplicate-free in-range selection [1, 25] is 2, and
swapping the list order leaves the mask unchanged. -/
theorem squares_mask_correct_witness :
    (createSquaresMask [⟨1⟩, ⟨25⟩, ⟨26⟩]).testBit 24 = true ∧
    (createSquaresMask [⟨1⟩, ⟨25⟩, ⟨26⟩]).testBit 25 = false ∧
    createSquaresMask [⟨1⟩, ⟨25⟩, ⟨26⟩] = 16777217 ∧
    bitCount32 (createSquaresMask [⟨1⟩, ⟨25⟩]) = 2 ∧
    createSquaresMask [⟨1⟩, ⟨25⟩] = createSquaresMask [⟨25⟩, ⟨1⟩] := by
  refine ⟨?_, by decide, by decide, ?_, ?_⟩
  · exact (squares_mask_correct.1 [⟨1⟩, ⟨25⟩, ⟨26⟩] 24).mpr
      ⟨⟨25⟩, by simp, by norm_num, by norm_num⟩
  · exact squares_mask_correct.2.1 [⟨1⟩, ⟨25⟩] (by decide) (by decide)
  · exact squares_mask_correct.2.2 [⟨1⟩, ⟨25⟩] [⟨25⟩, ⟨1⟩] (by decide)

/-- C5: every transaction assembled by the deploy cycle carries its
instructions in the fixed order: compute unit limit, compute unit price, then
the checkpoint instruction exactly when the miner state is dirty and eligible,
then the fee transfer exactly when the fee is strictly positive, and the
deploy instruction last. -/
theorem deploy_instruction_order (R : ℕ) (s : ℚ) (ts : List Target)
    (mi : Option Miner) :
    (buildDeployTx R s ts mi).1 =
      [Instruction.setComputeUnitLimit 750000,
        Instruction.setComputeUnitPrice 100000] ++
      (if minerRoundIdOf mi ≠ minerCheckpointIdOf mi ∧ minerRoundIdOf mi < R then
        [Instruction.ore (deployCheckpointAccounts (minerRoundIdOf mi)) [2]]
      else []) ++
      (if 0 < feeAmountLamports s ts.length then
        [Instruction.transfer Addr.authority feeRecipient
          (feeAmountLamports s ts.length)]
      else []) ++
      [Instruction.ore (deployAccounts R)
        (deployData (amountLamports s) (createSquaresMask ts))] :=
  buildDeployTx_fst R s ts mi

/-- C1: for a miner record with checkpoint_id different from round_id and
round_id below the current round R, the assembled deploy transaction carries,
directly after the compute budget hints and before the deploy instruction, a
checkpoint instruction whose data is the single opcode byte 2 with no
operands, whose account list references the round address derived from the
stale round_id and never the one derived from R. -/
theorem checkpoint_prepended_for_dirty_eligible (R : ℕ) (s : ℚ)
    (ts : List Target) (m : Miner)
    (hdirty : m.checkpoint_id ≠ m.round_id) (hstale : m.round_id < R) :
    ∃ feePart,
      (buildDeployTx R s ts (some m)).1 =
        [Instruction.setComputeUnitLimit 750000,
          Instruction.setComputeUnitPrice 100000,
          Instruction.ore (deployCheckpointAccounts m.round_id) [2]] ++
        feePart ++
        [Instruction.ore (deployAccounts R)
          (deployData (amountLamports s) (createSquaresMask ts))] ∧
      (⟨Addr.roundPda m.round_id, false, true⟩ : AccountMeta) ∈
        deployCheckpointAccounts m.round_id ∧
      ∀ meta ∈ deployCheckpointAccounts m.round_id,
        meta.pubkey ≠ Addr.roundPda R := by
  refine ⟨if 0 < feeAmountLamports s ts.length then
      [Instruction.transfer Addr.authority feeRecipient
        (feeAmountLamports s ts.length)]
    else [], ?_, ?_, ?_⟩
  · rw [buildDeployTx_fst]
    have h1 : minerRoundIdOf (some m) ≠ minerCheckpointIdOf (some m) ∧
        minerRoundIdOf (some m) < R := by
      simp only [minerRoundIdOf, minerCheckpointIdOf]
      exact ⟨fun h => hdirty h.symm, hstale⟩
    rw [if_pos h1]
    simp [minerRoundIdOf]
  · simp [deployCheckpointAccounts]
  · have hne : m.round_id ≠ R := Nat.ne_of_lt hstale
    intro meta hmeta
    fin_cases hmeta <;> simp [hne]

/-- Witness for C1 at the scenario with R = 10 and a miner record with
round_id 8 and checkpoint_id 7: the checkpoint against round 8 is placed
between the compute budget hints and the deploy instruction. -/
theorem checkpoint_prepended_for_dirty_eligible_witness :
    ∃ feePart,
      (buildDeployTx 10 1 [⟨1⟩] (some ⟨8, 7⟩)).1 =
        [Instruction.setComputeUnitLimit 750000,
          Instruction.setComputeUnitPrice 100000,
          Instruction.ore (deployCheckpointAccounts 8) [2]] ++
        feePart ++
        [Instruction.ore (deployAccounts 10)
          (deployData (amountLamports 1) (createSquaresMask [⟨1⟩]))] ∧
      (⟨Addr.roundPda 8, false, true⟩ : AccountMeta) ∈
        deployCheckpointAccounts 8 ∧
      ∀ meta ∈ deployCheckpointAccounts 8,
        meta.pubkey ≠ Addr.roundPda 10 :=
  checkpoint_prepended_for_dirty_eligible 10 1 [⟨1⟩] ⟨8, 7⟩
    (by decide) (by decide)

lemma buildDeployTx_getLast (R : ℕ) (s : ℚ) (ts : List Target)
    (mi : Option Miner) :
    (buildDeployTx R s ts mi).1.getLast? =
      some (Instruction.ore (deployAccounts R)
        (deployData (amountLamports s) (createSquaresMask ts))) := by
  rw [buildDeployTx_fst]
  by_cases h1 : minerRoundIdOf mi ≠ minerCheckpointIdOf mi ∧ minerRoundIdOf mi < R
  · by_cases h2 : 0 < feeAmountLamports s ts.length
    · rw [if_pos h1, if_pos h2]
      rfl
    · rw [if_pos h1, if_neg h2]
      rfl
  · by_cases h2 : 0 < feeAmountLamports s ts.length
    · rw [if_neg h1, if_pos h2]
      rfl
    · rw [if_neg h1, if_neg h2]
      rfl

/-- C6: for a miner record with checkpoint_id different from round_id but
round_id not below the current round, the deploy cycle surfaces a warning log,
adds no checkpoint instruction to the transaction, and still submits the
transaction whose last instruction is the deploy instruction. -/
theorem dirty_ineligible_warns_no_checkpoint (env : DeployEnv) (m : Miner)
    (rd : Round) (v : ℤ)
    (hsigner : env.signerLoaded = true)
    (hts : env.targets ≠ [])
    (hround : env.roundAccountInfo = some (Except.ok rd))
    (htd : rd.total_deployed = some v)
    (hminer : env.minerAccountInfo = some m)
    (hdirty : m.checkpoint_id ≠ m.round_id)
    (hcur : env.currentRoundId ≤ m.round_id) :
    Event.log ("warning: state dirty but round " ++ toString m.round_id ++
      " is current. skipping checkpoint.") ∈ sendDeployTx env ∧
    (∀ keys, Instruction.ore keys [2] ∉
      (buildDeployTx env.currentRoundId env.customDeployAmount env.targets
        env.minerAccountInfo).1) ∧
    (buildDeployTx env.currentRoundId env.customDeployAmount env.targets
        env.minerAccountInfo).1.getLast? =
      some (Instruction.ore (deployAccounts env.currentRoundId)
        (deployData (amountLamports env.customDeployAmount)
          (createSquaresMask env.targets))) ∧
    Event.submit (buildDeployTx env.currentRoundId env.customDeployAmount
      env.targets env.minerAccountInfo).1 ∈ sendDeployTx env := by
  have hlen : ¬ env.targets.length = 0 := by
    simpa [List.length_eq_zero] using hts
  have hcond : ¬ (minerRoundIdOf env.minerAccountInfo ≠
      minerCheckpointIdOf env.minerAccountInfo ∧
      minerRoundIdOf env.minerAccountInfo < env.currentRoundId) := by
    rw [hminer]
    simp only [minerRoundIdOf, minerCheckpointIdOf]
    rintro ⟨-, hlt⟩
    omega
  have hwarn : (buildDeployTx env.currentRoundId env.customDeployAmount
      env.targets env.minerAccountInfo).2 =
      ["warning: state dirty but round " ++ toString m.round_id ++
        " is current. skipping checkpoint."] := by
    rw [buildDeployTx_snd, if_neg hcond, if_pos]
    · rw [hminer]
      simp [minerRoundIdOf]
    · rw [hminer]
      simp only [minerRoundIdOf, minerCheckpointIdOf]
      exact ⟨fun h => hdirty h.symm, by omega⟩
  refine ⟨?_, ?_, ?_, ?_⟩
  · simp only [sendDeployTx, hsigner, hround, htd, hlen]
    simp [hwarn]
  · intro keys hmem
    exact hcond ((ore2_mem_buildDeployTx _ _ _ _ _).mp hmem).1
  · exact buildDeployTx_getLast _ _ _ _
  · simp only [sendDeployTx, hsigner, hround, htd, hlen]
    simp

/-- Witness for C6 at the scenario with R = 10 and a miner record with
round_id 10 and checkpoint_id 9: the warning is logged, no checkpoint
instruction appears, and the submitted transaction ends with the deploy
instruction. -/
theorem dirty_ineligible_warns_no_checkpoint_witness :
    Event.log ("warning: state dirty but round " ++ toString (10 : ℕ) ++
      " is current. skipping checkpoint.") ∈
      sendDeployTx ⟨true, [⟨1⟩], 10, 0, some (Except.ok ⟨some 0⟩),
        some ⟨10, 9⟩, Except.ok "sig", none⟩ ∧
    (∀ keys, Instruction.ore keys [2] ∉
      (buildDeployTx 10 0 [⟨1⟩] (some ⟨10, 9⟩)).1) ∧
    (buildDeployTx 10 0 [⟨1⟩] (some ⟨10, 9⟩)).1.getLast? =
      some (Instruction.ore (deployAccounts 10)
        (deployData (amountLamports 0) (createSquaresMask [⟨1⟩]))) ∧
    Event.submit (buildDeployTx 10 0 [⟨1⟩] (some ⟨10, 9⟩)).1 ∈
      sendDeployTx ⟨true, [⟨1⟩], 10, 0, some (Except.ok ⟨some 0⟩),
        some ⟨10, 9⟩, Except.ok "sig", none⟩ :=
  dirty_ineligible_warns_no_checkpoint
    ⟨true, [⟨1⟩], 10, 0, some (Except.ok ⟨some 0⟩), some ⟨10, 9⟩,
      Except.ok "sig", none⟩
    ⟨10, 9⟩ ⟨some 0⟩ 0 rfl (by decide) rfl rfl rfl (by decide) (by decide)

/-- C7: for a miner record with checkpoint_id equal to round_id, and likewise
when no miner record exists, the assembled deploy transaction contains no
checkpoint instruction, for every current round identifier. -/
theorem clean_state_no_checkpoint (R : ℕ) (s : ℚ) (ts : List Target)
    (mi : Option Miner)
    (hclean : mi = none ∨ ∃ m, mi = some m ∧ m.checkpoint_id = m.round_id) :
    ∀ keys, Instruction.ore keys [2] ∉ (buildDeployTx R s ts mi).1 := by
  have h1 : ¬ (minerRoundIdOf mi ≠ minerCheckpointIdOf mi ∧
      minerRoundIdOf mi < R) := by
    rcases hclean with rfl | ⟨m, rfl, h⟩
    · simp [minerRoundIdOf, minerCheckpointIdOf]
    · simp [minerRoundIdOf, minerCheckpointIdOf, h]
  intro keys hmem
  exact h1 ((ore2_mem_buildDeployTx _ _ _ _ _).mp hmem).1

/-- Witness for C7 at the scenario with R = 10 and a clean miner record with
round_id 9 and checkpoint_id 9, and at the absent-record case. -/
theorem clean_state_no_checkpoint_witness :
    (∀ keys, Instruction.ore keys [2] ∉
      (buildDeployTx 10 1 [⟨1⟩] (some ⟨9, 9⟩)).1) ∧
    (∀ keys, Instruction.ore keys [2] ∉
      (buildDeployTx 10 1 [⟨1⟩] none).1) :=
  ⟨clean_state_no_checkpoint 10 1 [⟨1⟩] (some ⟨9, 9⟩)
      (Or.inr ⟨⟨9, 9⟩, rfl, rfl⟩),
    clean_state_no_checkpoint 10 1 [⟨1⟩] none (Or.inl rfl)⟩

lemma ratFloor_eq_intFloor (q : ℚ) : q.floor = ⌊q⌋ := by
  rw [Rat.floor_def', Rat.floor_def]

lemma amountLamports_eq (s : ℚ) :
    amountLamports s = ⌊s / SOL_PER_LAMPORT⌋ := by
  rw [amountLamports, ratFloor_eq_intFloor]

lemma feeAmountLamports_eq (s : ℚ) (n : ℕ) :
    feeAmountLamports s n = ⌊s * (n : ℚ) * (1 / 100) / SOL_PER_LAMPORT⌋ := by
  rw [feeAmountLamports, ratFloor_eq_intFloor]

/-- C10: every fee transfer instruction emitted by the deploy cycle moves the
computed fee from the signing authority to the one hardcoded recipient
address, for every input; the recipient never varies with configuration,
selection, or round. -/
theorem fee_transfer_recipient_fixed (R : ℕ) (s : ℚ) (ts : List Target)
    (mi : Option Miner) (f t : Addr) (l : ℤ)
    (hmem : Instruction.transfer f t l ∈ (buildDeployTx R s ts mi).1) :
    f = Addr.authority ∧
    t = Addr.pubkeyConst "oREVE663st4oVqRp31TdEKdjqUYmZkJ3Vofi1zEAPro" ∧
    l = feeAmountLamports s ts.length ∧ 0 < l := by
  obtain ⟨hpos, hf, ht, hl⟩ := (transfer_mem_buildDeployTx R s ts mi f t l).mp hmem
  subst hl
  exact ⟨hf, ht, rfl, hpos⟩

/-- Witness for C10: with a stake of 1 SOL and one target the fee is positive,
the fee transfer is present, and its recipient is the hardcoded address. -/
theorem fee_transfer_recipient_fixed_witness :
    Instruction.transfer Addr.authority feeRecipient
      (feeAmountLamports 1 (List.length [(⟨1⟩ : Target)])) ∈
      (buildDeployTx 1 1 [⟨1⟩] none).1 ∧
    (Addr.authority = Addr.authority ∧
      feeRecipient =
        Addr.pubkeyConst "oREVE663st4oVqRp31TdEKdjqUYmZkJ3Vofi1zEAPro" ∧
      feeAmountLamports 1 (List.length [(⟨1⟩ : Target)]) =
        feeAmountLamports 1 (List.length [(⟨1⟩ : Target)]) ∧
      0 < feeAmountLamports 1 (List.length [(⟨1⟩ : Target)])) := by
  have hmem : Instruction.transfer Addr.authority feeRecipient
      (feeAmountLamports 1 (List.length [(⟨1⟩ : Target)])) ∈
      (buildDeployTx 1 1 [⟨1⟩] none).1 :=
    (transfer_mem_buildDeployTx 1 1 [⟨1⟩] none _ _ _).mpr
      ⟨by rw [feeAmountLamports_eq]; norm_num [SOL_PER_LAMPORT], rfl, rfl, rfl⟩
  exact ⟨hmem, fee_transfer_recipient_fixed 1 1 [⟨1⟩] none _ _ _ hmem⟩

/-- C3: for a nonnegative configured stake s and a non-empty selection of n
targets, the fee in lamports is floor(s * n * 0.01 / SOL_PER_LAMPORT), the
per-target stake in lamports is floor(s / SOL_PER_LAMPORT), which for
nonnegative stakes coincides with truncation toward zero, and a fee transfer
instruction is present in the assembled transaction iff the computed fee is
strictly positive. -/
theorem fee_and_stake_computation (s : ℚ) (ts : List Target) (R : ℕ)
    (mi : Option Miner) (hs : 0 ≤ s) (hts : ts ≠ []) :
    feeAmountLamports s ts.length =
      ⌊s * (ts.length : ℚ) * (1 / 100) / SOL_PER_LAMPORT⌋ ∧
    amountLamports s = ⌊s / SOL_PER_LAMPORT⌋ ∧
    amountLamports s = specTruncTowardZero (s / SOL_PER_LAMPORT) ∧
    ((∃ f t l, Instruction.transfer f t l ∈ (buildDeployTx R s ts mi).1) ↔
      0 < feeAmountLamports s ts.length) := by
  refine ⟨feeAmountLamports_eq s ts.length, amountLamports_eq s, ?_, ?_⟩
  · rw [amountLamports_eq, specTruncTowardZero, if_pos]
    exact div_nonneg hs (by norm_num [SOL_PER_LAMPORT])
  · constructor
    · rintro ⟨f, t, l, hmem⟩
      exact ((transfer_mem_buildDeployTx R s ts mi f t l).mp hmem).1
    · intro hpos
      exact ⟨Addr.authority, feeRecipient, feeAmountLamports s ts.length,
        (transfer_mem_buildDeployTx R s ts mi _ _ _).mpr ⟨hpos, rfl, rfl, rfl⟩⟩

/-- Witness for C3 at stake 0.5 SOL and two targets: the fee is 10^7 lamports,
the per-target stake is 5 * 10^8 lamports, and the fee transfer is present. -/
theorem fee_and_stake_computation_witness :
    (feeAmountLamports (1 / 2) (List.length [(⟨1⟩ : Target), ⟨2⟩]) =
      ⌊(1 / 2 : ℚ) * ((List.length [(⟨1⟩ : Target), ⟨2⟩] : ℕ) : ℚ) *
        (1 / 100) / SOL_PER_LAMPORT⌋ ∧
    amountLamports (1 / 2) = ⌊(1 / 2 : ℚ) / SOL_PER_LAMPORT⌋ ∧
    amountLamports (1 / 2) = specTruncTowardZero ((1 / 2 : ℚ) / SOL_PER_LAMPORT) ∧
    ((∃ f t l, Instruction.transfer f t l ∈
        (buildDeployTx 3 (1 / 2) [⟨1⟩, ⟨2⟩] none).1) ↔
      0 < feeAmountLamports (1 / 2) (List.length [(⟨1⟩ : Target), ⟨2⟩]))) ∧
    feeAmountLamports (1 / 2) (List.length [(⟨1⟩ : Target), ⟨2⟩]) = 10000000 ∧
    amountLamports (1 / 2) = 500000000 := by
  refine ⟨fee_and_stake_computation (1 / 2) [⟨1⟩, ⟨2⟩] 3 none
    (by norm_num) (by simp), ?_, ?_⟩
  · rw [feeAmountLamports_eq]
    norm_num [SOL_PER_LAMPORT]
  · rw [amountLamports_eq]
    norm_num [SOL_PER_LAMPORT]

/-- C8: the deploy instruction payload is exactly 13 bytes of byte values: the
opcode byte 6, then the stake amount in lamports as an 8-byte little-endian
unsigned integer, then the squares bitmask as a 4-byte little-endian unsigned
integer (the hypotheses delimit the u64 range in which writeBigUInt64LE does
not throw). -/
theorem deploy_payload_layout (amt : ℤ) (ts : List Target)
    (h0 : 0 ≤ amt) (h64 : amt < 2 ^ 64) :
    (deployData amt (createSquaresMask ts)).length = 13 ∧
    (deployData amt (createSquaresMask ts)).take 1 = [6] ∧
    (∀ b ∈ deployData amt (createSquaresMask ts), b < 256) ∧
    ((leDecode (((deployData amt (createSquaresMask ts)).drop 1).take 8) : ℤ)
      = amt) ∧
    leDecode ((deployData amt (createSquaresMask ts)).drop 9)
      = createSquaresMask ts := by
  have hlen8 : (leBytes 8 amt.toNat).length = 8 := leBytes_length 8 amt.toNat
  have hdrop1 : (deployData amt (createSquaresMask ts)).drop 1 =
      leBytes 8 amt.toNat ++ leBytes 4 (createSquaresMask ts) := rfl
  refine ⟨?_, rfl, ?_, ?_, ?_⟩
  · simp [deployData, leBytes_length]
  · intro b hb
    rcases List.mem_cons.mp hb with rfl | hb
    · norm_num
    · rcases List.mem_append.mp hb with hb | hb
      · exact leBytes_bytes_lt _ _ _ hb
      · exact leBytes_bytes_lt _ _ _ hb
  · rw [hdrop1, List.take_left' hlen8, leDecode_leBytes]
    have htoNat : amt.toNat < 256 ^ 8 := by
      have : (256 : ℕ) ^ 8 = 2 ^ 64 := by norm_num
      omega
    rw [Nat.mod_eq_of_lt htoNat]
    omega
  · have hdrop9 : (deployData amt (createSquaresMask ts)).drop 9 =
        leBytes 4 (createSquaresMask ts) := by
      have : (deployData amt (createSquaresMask ts)).drop 9 =
          ((leBytes 8 amt.toNat ++ leBytes 4 (createSquaresMask ts)).drop 8) := rfl
      rw [this, List.drop_left' hlen8]
    rw [hdrop9, leDecode_leBytes]
    have hmask : createSquaresMask ts < 256 ^ 4 := by
      have h25 := createSquaresMask_lt ts
      have : (2 : ℕ) ^ 25 ≤ 256 ^ 4 := by norm_num
      omega
    exact Nat.mod_eq_of_lt hmask

/-- Witness for C8 at stake amount 500000000 lamports and selection [1, 25]:
the payload is 13 bytes with opcode 6 and correct little-endian fields. -/
theorem deploy_payload_layout_witness :
    (deployData 500000000 (createSquaresMask [⟨1⟩, ⟨25⟩])).length = 13 ∧
    (deployData 500000000 (createSquaresMask [⟨1⟩, ⟨25⟩])).take 1 = [6] ∧
    (∀ b ∈ deployData 500000000 (createSquaresMask [⟨1⟩, ⟨25⟩]), b < 256) ∧
    ((leDecode (((deployData 500000000
        (createSquaresMask [⟨1⟩, ⟨25⟩])).drop 1).take 8) : ℤ) = 500000000) ∧
    leDecode ((deployData 500000000 (createSquaresMask [⟨1⟩, ⟨25⟩])).drop 9)
      = createSquaresMask [⟨1⟩, ⟨25⟩] :=
  deploy_payload_layout 500000000 [⟨1⟩, ⟨25⟩] (by norm_num) (by norm_num)

/-- C9: the deploy cycle ends early, submitting nothing and never invoking the
fatal error handler, whenever the signer is missing, the target selection is
empty, the round account does not exist, or the round account fails to decode
as fully initialized; in the last two cases the single emitted event is an
informational deferral log, so no decoding failure escapes as an exception. -/
theorem deploy_guard_early_return (env : DeployEnv)
    (h : env.signerLoaded = false ∨ env.targets = [] ∨
      env.roundAccountInfo = none ∨
      env.roundAccountInfo = some (Except.error ()) ∨
      ∃ rd, env.roundAccountInfo = some (Except.ok rd) ∧
        rd.total_deployed = none) :
    (∀ instrs, Event.submit instrs ∉ sendDeployTx env) ∧
    Event.fatalError ∉ sendDeployTx env ∧
    (env.signerLoaded = true → env.targets ≠ [] →
      env.roundAccountInfo = none →
      sendDeployTx env = [Event.log ("deploy skipped: round " ++
        toString env.currentRoundId ++
        " account not found. Waiting for next tick.")]) ∧
    (env.signerLoaded = true → env.targets ≠ [] →
      (env.roundAccountInfo = some (Except.error ()) ∨
        ∃ rd, env.roundAccountInfo = some (Except.ok rd) ∧
          rd.total_deployed = none) →
      sendDeployTx env = [Event.log ("deploy skipped: round " ++
        toString env.currentRoundId ++
        " account found but not initialized. Waiting for next tick.")]) := by
  have hsplit : sendDeployTx env =
        [Event.log "deploy failed: signer keypair not loaded"] ∨
      sendDeployTx env = [Event.log "deploy skipped: no targets provided"] ∨
      sendDeployTx env = [Event.log ("deploy skipped: round " ++
        toString env.currentRoundId ++
        " account not found. Waiting for next tick.")] ∨
      sendDeployTx env = [Event.log ("deploy skipped: round " ++
        toString env.currentRoundId ++
        " account found but not initialized. Waiting for next tick.")] := by
    by_cases hs : env.signerLoaded = true
    · by_cases hl : env.targets.length = 0
      · right; left
        simp [sendDeployTx, hs, hl]
      · rcases h with h | h | h | h | ⟨rd, hr, htd⟩
        · simp [h] at hs
        · simp [h] at hl
        · right; right; left
          simp [sendDeployTx, hs, hl, h]
        · right; right; right
          simp [sendDeployTx, hs, hl, h]
        · right; right; right
          simp [sendDeployTx, hs, hl, hr, htd]
    · left
      have hs2 : env.signerLoaded = false := by
        cases hx : env.signerLoaded
        · rfl
        · exact absurd hx hs
      simp [sendDeployTx, hs2]
  refine ⟨?_, ?_, ?_, ?_⟩
  · intro instrs hmem
    rcases hsplit with he | he | he | he <;> rw [he] at hmem <;> simp at hmem
  · intro hmem
    rcases hsplit with he | he | he | he <;> rw [he] at hmem <;> simp at hmem
  · intro hs ht hr
    have hl : ¬ env.targets.length = 0 := by
      simpa [List.length_eq_zero] using ht
    simp [sendDeployTx, hs, hl, hr]
  · intro hs ht hr
    have hl : ¬ env.targets.length = 0 := by
      simpa [List.length_eq_zero] using ht
    rcases hr with hr | ⟨rd, hr, htd⟩
    · simp [sendDeployTx, hs, hl, hr]
    · simp [sendDeployTx, hs, hl, hr, htd]

/-- Witness for C9 at an environment with no signer loaded: nothing is
submitted and the fatal handler is not invoked. -/
theorem deploy_guard_early_return_witness :
    (∀ instrs, Event.submit instrs ∉
      sendDeployTx ⟨false, [], 0, 0, none, none, Except.ok "", none⟩) ∧
    Event.fatalError ∉
      sendDeployTx ⟨false, [], 0, 0, none, none, Except.ok "", none⟩ :=
  ⟨(deploy_guard_early_return
      ⟨false, [], 0, 0, none, none, Except.ok "", none⟩ (Or.inl rfl)).1,
    (deploy_guard_early_return
      ⟨false, [], 0, 0, none, none, Except.ok "", none⟩ (Or.inl rfl)).2.1⟩

/-- C2 counterexample: a deploy submission failure whose structured logs
contain the benign-duplicate marker still invokes the fatal error handler, so
the benign-duplicate classification does not apply to every submission
failure as the claim states. -/
theorem deploy_benign_failure_still_fatal :
    strContains (errorLogsOf ⟨"fail", some ["custom program error: 0x1"]⟩)
      benignMarker = true ∧
    Event.fatalError ∈ sendDeployTx
      ⟨true, [⟨1⟩], 1, 0, some (Except.ok ⟨some 0⟩), none,
        Except.error ⟨"fail", some ["custom program error: 0x1"]⟩, none⟩ := by
  constructor
  · decide
  · simp [sendDeployTx]

/-- C2 amended: the benign-duplicate classification applies to checkpoint
submission failures: when the failure content (structured logs joined, or the
message when no logs are attached) contains the benign-duplicate marker,
sendCheckpointTx logs an informational line, returns success, and does not
invoke the fatal handler; every other checkpoint submission failure invokes
the fatal handler and returns failure. Deploy submission failures always
invoke the fatal handler, regardless of content. -/
theorem submission_failure_classification :
    (∀ (r : ℕ) (e : JsError),
      strContains (errorLogsOf e) benignMarker = true →
      (sendCheckpointTx r ⟨true, Except.error e⟩).2 = true ∧
      Event.fatalError ∉ (sendCheckpointTx r ⟨true, Except.error e⟩).1 ∧
      Event.log ("checkpoint for round " ++ toString r ++
        " already done or not needed") ∈
        (sendCheckpointTx r ⟨true, Except.error e⟩).1) ∧
    (∀ (r : ℕ) (e : JsError),
      strContains (errorLogsOf e) benignMarker = false →
      (sendCheckpointTx r ⟨true, Except.error e⟩).2 = false ∧
      Event.fatalError ∈ (sendCheckpointTx r ⟨true, Except.error e⟩).1) ∧
    (∀ (env : DeployEnv) (e : JsError) (rd : Round) (v : ℤ),
      env.signerLoaded = true → env.targets ≠ [] →
      env.roundAccountInfo = some (Except.ok rd) →
      rd.total_deployed = some v →
      env.submitResult = Except.error e →
      Event.fatalError ∈ sendDeployTx env) := by
  refine ⟨?_, ?_, ?_⟩
  · intro r e hmarker
    refine ⟨?_, ?_, ?_⟩ <;> simp [sendCheckpointTx, hmarker]
  · intro r e hmarker
    constructor <;> simp [sendCheckpointTx, hmarker]
  · intro env e rd v hs ht hr htd hsub
    have hl : ¬ env.targets.length = 0 := by
      simpa [List.length_eq_zero] using ht
    cases hlf : env.logFetchFailure <;>
      simp [sendDeployTx, hs, hl, hr, htd, hsub, hlf]

/-- Witness for the amended C2: a benign checkpoint failure returns success
without the fatal handler, and a deploy failure invokes the fatal handler. -/
theorem submission_failure_classification_witness :
    (sendCheckpointTx 5
      ⟨true, Except.error ⟨"f", some ["custom program error: 0x1"]⟩⟩).2 =
      true ∧
    Event.fatalError ∉ (sendCheckpointTx 5
      ⟨true, Except.error ⟨"f", some ["custom program error: 0x1"]⟩⟩).1 ∧
    Event.fatalError ∈ sendDeployTx
      ⟨true, [⟨1⟩], 1, 0, some (Except.ok ⟨some 0⟩), none,
        Except.error ⟨"boom", none⟩, none⟩ := by
  refine ⟨?_, ?_, ?_⟩
  · exact (submission_failure_classification.1 5
      ⟨"f", some ["custom program error: 0x1"]⟩ (by decide)).1
  · exact (submission_failure_classification.1 5
      ⟨"f", some ["custom program error: 0x1"]⟩ (by decide)).2.1
  · exact submission_failure_classification.2.2
      ⟨true, [⟨1⟩], 1, 0, some (Except.ok ⟨some 0⟩), none,
        Except.error ⟨"boom", none⟩, none⟩
      ⟨"boom", none⟩ ⟨some 0⟩ 0 rfl (by simp) rfl rfl rfl
end Lodestar
